import Mathlib

/-!
Shallow embedding of the `plenty_dokumentendownloader` repository:
the `PlentymarketsClient` session manager / HTTP retry primitive
(`src/plentymarkets_client/plentymarkets_client.py`) and the
`DocumentDownloadWorker` pagination loop (`src/app.py`).

Python exceptions are modelled with `Except String`: an `.error e`
value stands for an exception carrying message `e` propagating out of
the modelled function.  Mutable attributes of the client object are
threaded explicitly as a `ClientState`.  Wall-clock reads
(`datetime.utcnow().timestamp()`) and the success of the cache-file
write are passed in as parameters, and HTTP traffic is an explicit
parameter giving the server's response to each request.
-/

namespace PlentyDoc

/-- Parsed JSON body of a login / refresh response.  Each field is
`none` when the corresponding key is absent from the JSON object
(accessing an absent key in the source raises `KeyError`, or is given
a default via `json.get`). -/
structure AuthBody where
  error : Option String
  access_token : Option String
  refresh_token : Option String
  expiresIn : Option Int
deriving DecidableEq

/-- Outcome of a `requests.post` call to the login or refresh
endpoint, as observed by the client: the transport layer raised
(`netExn`), the body was not JSON so `response.json()` raised
(`nonJson`), or a JSON body came back with the given status code. -/
inductive AuthResp
  | netExn
  | nonJson (code : Nat)
  | jsonResp (code : Nat) (body : AuthBody)
deriving DecidableEq

/-- The mutable token attributes of a `PlentymarketsClient` object:
`__py_api_token`, `__py_api_refresh_token`, `__py_api_token_expires_at`. -/
structure ClientState where
  token : Option String
  refresh_token : Option String
  expires_at : Option Int
deriving DecidableEq

/-- Attribute values set by `__init__` before `__bootstrap` runs. -/
def initState : ClientState := ⟨none, none, none⟩

/-- `PlentymarketsClient.__save_token`.  `now` is
`datetime.utcnow().timestamp()`, `writeOk` tells whether the
`pickle.dump` to `.py_session` succeeds.  The in-memory attributes are
assigned field by field before the file write is attempted, exactly as
in the source (lines 75-78 precede the `try` block), so a missing key
leaves the attributes assigned so far in place. -/
def save_token (now : Int) (body : AuthBody) (writeOk : Bool) (st : ClientState) :
    ClientState × Except String Bool :=
  match body.expiresIn with
  | none => (st, Except.error "KeyError: expiresIn")
  | some ei =>
    let expires_at := now + ei - 2 * 60 * 60
    let st1 : ClientState := { st with expires_at := some expires_at }
    match body.access_token with
    | none => (st1, Except.error "KeyError: access_token")
    | some a =>
      let st2 : ClientState := { st1 with token := some a }
      match body.refresh_token with
      | none => (st2, Except.error "KeyError: refresh_token")
      | some r =>
        let st3 : ClientState := { st2 with refresh_token := some r }
        (st3, Except.ok writeOk)

/-- `PlentymarketsClient.__login`.  The body is parsed before the
status check (line 41), so a non-JSON body raises regardless of the
code; a non-200 code raises `RuntimeError("Login failed! " + error)`
where `error` is `json.get("error", str(status_code))`; on 200 the
token is saved (the boolean result of `__save_token` is ignored). -/
def login (resp : AuthResp) (now : Int) (writeOk : Bool) (st : ClientState) :
    ClientState × Except String Unit :=
  match resp with
  | .netExn => (st, Except.error "ConnectionError")
  | .nonJson _ => (st, Except.error "JSONDecodeError")
  | .jsonResp code body =>
    if code ≠ 200 then
      (st, Except.error ("Login failed! " ++ body.error.getD (toString code)))
    else
      let sv := save_token now body writeOk st
      match sv.2 with
      | .error e => (sv.1, Except.error e)
      | .ok _ => (sv.1, Except.ok ())

/-- `PlentymarketsClient.__refresh_login`.  Returns `false` on a
non-200 JSON response and `true` after a successful `__save_token`
(whose own boolean is ignored); transport errors, non-JSON bodies and
missing token fields propagate as exceptions (`.error`). -/
def refresh_login (resp : AuthResp) (now : Int) (writeOk : Bool) (st : ClientState) :
    ClientState × Except String Bool :=
  match resp with
  | .netExn => (st, Except.error "ConnectionError")
  | .nonJson _ => (st, Except.error "JSONDecodeError")
  | .jsonResp code body =>
    if code ≠ 200 then (st, Except.ok false)
    else
      let sv := save_token now body writeOk st
      match sv.2 with
      | .error e => (sv.1, Except.error e)
      | .ok _ => (sv.1, Except.ok true)

/-- Deserialized contents of the `.py_session` cache file; a field is
`none` when the pickled dict lacks that key. -/
structure CacheBody where
  access_token : Option String
  refresh_token : Option String
  expires_at : Option Int
deriving DecidableEq

/-- What loading the cache yields: `missing` covers an absent file and
an unpickle failure (both raise inside the `try` of `__load_token` and
are observably identical), `loaded` a successfully unpickled dict. -/
inductive CacheLoad
  | missing
  | loaded (body : CacheBody)
deriving DecidableEq

/-- `PlentymarketsClient.__load_token`: any missing key raises
`ValueError("Malformed Token")`, which like every other exception in
the body is caught and turned into `False`; on success all three
attributes are installed and `True` is returned. -/
def load_token (cache : CacheLoad) (st : ClientState) : ClientState × Bool :=
  match cache with
  | .missing => (st, false)
  | .loaded body =>
    match body.expires_at, body.access_token, body.refresh_token with
    | some e, some a, some r =>
      ({ st with expires_at := some e, token := some a, refresh_token := some r }, true)
    | _, _, _ => (st, false)

/-- The expiry test of `__bootstrap` (line 121):
`datetime.utcnow().timestamp() > self.__py_api_token_expires_at`.
The stored field is only read on the branch where `__load_token`
succeeded and therefore set it; the `getD 0` default is unreachable
from `bootstrap`. -/
def session_expired (st : ClientState) (now : Int) : Bool :=
  decide (st.expires_at.getD 0 < now)

/-- Auth operations attempted, in order, during a run. -/
inductive AuthAction
  | refreshAttempt
  | loginAttempt
deriving DecidableEq

/-- `PlentymarketsClient.__bootstrap`.  `rresp` / `lresp` are the
server's responses to the refresh and login requests, should they be
issued.  Returns the final state, the exception outcome, and the list
of auth operations attempted. -/
def bootstrap (cache : CacheLoad) (now : Int) (rresp lresp : AuthResp) (w : Bool)
    (st : ClientState) : ClientState × Except String Unit × List AuthAction :=
  let l := load_token cache st
  if l.2 = false then
    let lg := login lresp now w l.1
    (lg.1, lg.2, [AuthAction.loginAttempt])
  else if session_expired l.1 now then
    let rr := refresh_login rresp now w l.1
    match rr.2 with
    | .ok true => (rr.1, Except.ok (), [AuthAction.refreshAttempt])
    | .ok false =>
      let lg := login lresp now w rr.1
      (lg.1, lg.2, [AuthAction.refreshAttempt, AuthAction.loginAttempt])
    | .error e => (rr.1, Except.error e, [AuthAction.refreshAttempt])
  else (l.1, Except.ok (), [])

/-- The `credentials` argument of the constructor: either not a dict
at all, or a dict whose `username` / `password` keys are present
(`some`, with the mapped value) or absent (`none`). -/
inductive CredArg
  | notDict
  | dict (username : Option String) (password : Option String)
deriving DecidableEq

/-- `PlentymarketsClient.__sanity_check_credentials`: rejects a
non-dict and a missing `username` or `password` key, in that order.
The mapped values themselves are never inspected. -/
def sanity_check_credentials : CredArg → Except String Unit
  | .notDict => Except.error "credentials has to be dict"
  | .dict u p =>
    match u with
    | none => Except.error "Missing username"
    | some _ =>
      match p with
      | none => Except.error "Missing API-Password"
      | some _ => Except.ok ()

/-- `CredArg` has both required keys. -/
def hasBothCredKeys : CredArg → Bool
  | .dict (some _) (some _) => true
  | _ => false

/-- `PlentymarketsClient.__init__`: credential sanity check first
(before any network traffic), then `__bootstrap`. -/
def client_init (arg : CredArg) (cache : CacheLoad) (now : Int) (rresp lresp : AuthResp)
    (w : Bool) : ClientState × Except String Unit × List AuthAction :=
  match sanity_check_credentials arg with
  | .error e => (initState, Except.error e, [])
  | .ok _ => bootstrap cache now rresp lresp w initState

/-! ## The HTTP GET primitive with retry (`__simple_get_request`) -/

/-- A downloaded archive body as `zipfile` sees it: `bad` for bytes
that raise `BadZipFile` on open (an empty byte string, which is falsy
and short-circuits before parsing, lands in the same stop branch and
is folded in here), `withNames` for a parsable archive with the given
name list. -/
inductive Zip
  | bad
  | withNames (names : List String)
deriving DecidableEq

/-- `DocumentDownloadWorker.__is_zip_empty`: an unparsable archive
counts as empty, otherwise emptiness of the name list decides. -/
def is_zip_empty : Zip → Bool
  | .bad => true
  | .withNames ns => ns.length == 0

/-- Outcome of one `requests.get` inside the retry loop: a 200 with
the given content, a non-200 status code, or a raised exception. -/
inductive GetResp
  | http200 (content : Zip)
  | http (code : Nat)
  | exnGet
deriving DecidableEq

/-- The environment's behaviour for one iteration of the retry loop:
the GET outcome, plus the auth-endpoint responses used if the 401
branch triggers a refresh and possibly a login. -/
structure GetAttempt where
  resp : GetResp
  refreshResp : AuthResp
  loginResp : AuthResp
deriving DecidableEq

/-- Observable trace of one `__simple_get_request` call: the returned
value (`none` both for exhausted retries and never-entered loops), the
durations actually passed to `time.sleep`, the number of `requests.get`
calls issued, the auth operations attempted from the 401 branch, and
the messages of exceptions caught by the loop's `except` clause. -/
structure GetTrace where
  result : Option Zip
  sleeps : List Nat
  attempts : Nat
  actions : List AuthAction
  caught : List String
deriving DecidableEq

/-- Prepend one loop iteration's contributions to a trace. -/
def GetTrace.step (sl : List Nat) (ac : List AuthAction) (cg : List String)
    (t : GetTrace) : GetTrace :=
  ⟨t.result, sl ++ t.sleeps, t.attempts + 1, ac ++ t.actions, cg ++ t.caught⟩

/-- The body of `__simple_get_request`'s `for _ in range(3)` loop,
recursing on the remaining iteration count `n` with attempt index `i`
and current `delay`.  On 401 the sleep comes first, then
`__refresh_login`, then `__login` if the refresh returned `False`;
an exception from either is caught by the surrounding `except` and the
loop moves on.  On 429 only the sleep happens.  Any other non-200
status (and a raised GET) falls through with no sleep.  `delay` grows
by the fixed `backoff = 20` at the end of every iteration. -/
def simple_get_go (att : Nat → GetAttempt) (now : Int) (writeOk : Bool) :
    Nat → Nat → Nat → ClientState → ClientState × GetTrace
  | 0, _, _, st => (st, ⟨none, [], 0, [], []⟩)
  | n + 1, i, delay, st =>
    match (att i).resp with
    | .http200 c => (st, ⟨some c, [], 1, [], []⟩)
    | .exnGet =>
      let r1 := simple_get_go att now writeOk n (i + 1) (delay + 20) st
      (r1.1, r1.2.step [] [] ["Exception during GET request"])
    | .http code =>
      if code == 401 then
        let rr := refresh_login (att i).refreshResp now writeOk st
        match rr.2 with
        | .ok true =>
          let r1 := simple_get_go att now writeOk n (i + 1) (delay + 20) rr.1
          (r1.1, r1.2.step [delay] [AuthAction.refreshAttempt] [])
        | .ok false =>
          let lg := login (att i).loginResp now writeOk rr.1
          match lg.2 with
          | .ok _ =>
            let r1 := simple_get_go att now writeOk n (i + 1) (delay + 20) lg.1
            (r1.1, r1.2.step [delay] [AuthAction.refreshAttempt, AuthAction.loginAttempt] [])
          | .error e =>
            let r1 := simple_get_go att now writeOk n (i + 1) (delay + 20) lg.1
            (r1.1, r1.2.step [delay] [AuthAction.refreshAttempt, AuthAction.loginAttempt] [e])
        | .error e =>
          let r1 := simple_get_go att now writeOk n (i + 1) (delay + 20) rr.1
          (r1.1, r1.2.step [delay] [AuthAction.refreshAttempt] [e])
      else if code == 429 then
        let r1 := simple_get_go att now writeOk n (i + 1) (delay + 20) st
        (r1.1, r1.2.step [delay] [] [])
      else
        let r1 := simple_get_go att now writeOk n (i + 1) (delay + 20) st
        (r1.1, r1.2.step [] [] [])

/-- `PlentymarketsClient.__simple_get_request`: `delay = 5`,
`backoff = 20`, at most 3 iterations, `None` after the loop. -/
def simple_get (att : Nat → GetAttempt) (now : Int) (writeOk : Bool) (st : ClientState) :
    ClientState × GetTrace :=
  simple_get_go att now writeOk 3 0 5 st

/-- A response on which the retry loop performs a `time.sleep`
before the next attempt (the 401 and 429 branches). -/
def waitsOnStatus : GetResp → Bool
  | .http code => code == 401 || code == 429
  | _ => false

/-- A failing outcome on which the retry loop does not sleep at all:
any non-200, non-401, non-429 status, or a raised GET. -/
def noWaitFailure : GetResp → Bool
  | .http code => !(code == 200 || code == 401 || code == 429)
  | .exnGet => true
  | .http200 _ => false

/-! ## The worker's pagination loop (`DocumentDownloadWorker.run`) -/

/-- Outcome of one `plenty.get_documents_by_type(...)` call as the
worker sees it: a returned value (`none` for `None`, i.e. exhausted
retries; `some z` for returned bytes parsing as `z`), or a raised
exception with message `msg`. -/
inductive FetchOutcome
  | ok (data : Option Zip)
  | exn (msg : String)
deriving DecidableEq

/-- The worker's `if data and not self.__is_zip_empty(data)` guard:
`None` is falsy, otherwise the archive must have at least one entry. -/
def dataNonEmpty : Option Zip → Bool
  | none => false
  | some z => !is_zip_empty z

/-- Log events emitted through `log_signal` by the worker. -/
inductive Event
  | started (t : String)
  | batchLoaded (t : String) (page : Nat)
  | done (t : String)
  | fetchError (t : String) (msg : String)
  | abortRun
  | connectError (msg : String)
deriving DecidableEq

/-- The output file name built in `run`:
`f"{self.filename_prefix}_{doc_type}-{page}.zip"` (the target
directory join is omitted; the claims concern the name pattern). -/
def fileName (pfx t : String) (page : Nat) : String :=
  pfx ++ "_" ++ t ++ "-" ++ toString page ++ ".zip"

/-- Observables of one document type's `while not stop_condition`
loop: files written (by name), log events, pages requested, and
whether the loop reached its stop condition within the given fuel. -/
structure TypeRun where
  files : List String
  events : List Event
  requests : List Nat
  finished : Bool
deriving DecidableEq

/-- The worker's per-type `while` loop.  `server page` is what
`get_documents_by_type` does when asked for that page.  A non-empty
page writes the file, logs the batch and moves to `page + 1`; an
absent payload or empty/unparsable archive logs the done message and
stops; an exception logs the error and the abort message and stops.
`fuel` bounds the unbounded source loop; `finished = true` means the
source loop terminated within the fuel. -/
def runTypeLoop (server : Nat → FetchOutcome) (pfx t : String) : Nat → Nat → TypeRun
  | 0, _ => ⟨[], [], [], false⟩
  | fuel + 1, page =>
    match server page with
    | .exn msg => ⟨[], [Event.fetchError t msg, Event.abortRun], [page], true⟩
    | .ok d =>
      if dataNonEmpty d then
        let r := runTypeLoop server pfx t fuel (page + 1)
        ⟨fileName pfx t page :: r.files, Event.batchLoaded t page :: r.events,
         page :: r.requests, r.finished⟩
      else
        ⟨[], [Event.done t], [page], true⟩

/-- One document type's processing in `run`: the start log line, then
the loop from `page = 1`. -/
def runType (server : Nat → FetchOutcome) (pfx t : String) (fuel : Nat) : TypeRun :=
  let r := runTypeLoop server pfx t fuel 1
  ⟨r.files, Event.started t :: r.events, r.requests, r.finished⟩

/-- Observables of a whole worker run over the selected types. -/
structure WorkerRun where
  files : List String
  events : List Event
  requests : List (String × Nat)
deriving DecidableEq

/-- The worker's `for doc_type in self.types` loop: each selected
type is processed independently and sequentially, whatever the
preceding types did. -/
def runWorker (server : String → Nat → FetchOutcome) (pfx : String) (fuel : Nat) :
    List String → WorkerRun
  | [] => ⟨[], [], []⟩
  | t :: rest =>
    let r := runType (server t) pfx t fuel
    let w := runWorker server pfx fuel rest
    ⟨r.files ++ w.files, r.events ++ w.events,
     r.requests.map (fun p => (t, p)) ++ w.requests⟩

/-- `DocumentDownloadWorker.run` top level: construct the client
inside `try`; on an exception emit the single connection-failure log
line and, `plenty` being `None`, process no document types at all;
otherwise run the per-type loops. -/
def appRun (arg : CredArg) (cache : CacheLoad) (now : Int) (rresp lresp : AuthResp)
    (w : Bool) (server : String → Nat → FetchOutcome) (pfx : String)
    (types : List String) (fuel : Nat) : WorkerRun :=
  match (client_init arg cache now rresp lresp w).2.1 with
  | .error e => ⟨[], [Event.connectError e], []⟩
  | .ok _ => runWorker server pfx fuel types

/-- `server` yields a non-empty archive at this page (the loop's
continue branch). -/
def outcomeNonEmpty : FetchOutcome → Bool
  | .ok d => dataNonEmpty d
  | .exn _ => false

/-- `server` yields, without raising, an absent payload or an
empty/unparsable archive at this page (the loop's done branch). -/
def outcomeEmptyOk : FetchOutcome → Bool
  | .ok d => !dataNonEmpty d
  | .exn _ => false

/-- The files, batch events and requests contributed by `n`
consecutive non-empty pages starting at `page`, prepended to the rest
of a loop run. -/
def attachPages (pfx t : String) (page n : Nat) (r : TypeRun) : TypeRun :=
  ⟨(List.range n).map (fun k => fileName pfx t (page + k)) ++ r.files,
   (List.range n).map (fun k => Event.batchLoaded t (page + k)) ++ r.events,
   (List.range n).map (fun k => page + k) ++ r.requests,
   r.finished⟩

/-- The GET outcome is a 200 (the only early return of the loop). -/
def isOk200 : GetResp → Bool
  | .http200 _ => true
  | _ => false

/-- A server for the end-to-end scenario of the spec: two full pages
of `invoice` data, then pages with zero archive entries. -/
def twoPageServer : Nat → FetchOutcome := fun p =>
  if p ≤ 2 then FetchOutcome.ok (some (Zip.withNames ["doc.pdf"]))
  else FetchOutcome.ok (some (Zip.withNames []))

/-- An environment answering every GET with HTTP 500 (the auth
responses are irrelevant: the 401 branch is never taken). -/
def all500Att : Nat → GetAttempt := fun _ =>
  ⟨GetResp.http 500, AuthResp.netExn, AuthResp.netExn⟩

/-- An environment answering every GET with HTTP 429. -/
def all429Att : Nat → GetAttempt := fun _ =>
  ⟨GetResp.http 429, AuthResp.netExn, AuthResp.netExn⟩

/-- An environment answering every GET with HTTP 401, every refresh
with a 400 error JSON, and every login with a 403 error JSON; the
login therefore raises `RuntimeError("Login failed! invalid
credentials")` inside the retry loop on every attempt. -/
def deniedAuthAtt : Nat → GetAttempt := fun _ =>
  ⟨GetResp.http 401,
   AuthResp.jsonResp 400 ⟨some "refresh denied", none, none, none⟩,
   AuthResp.jsonResp 403 ⟨some "invalid credentials", none, none, none⟩⟩

/-- The (state, trace) of a page fetch performed against
`deniedAuthAtt`. -/
def deniedAuthGet : ClientState × GetTrace := simple_get deniedAuthAtt 0 true initState

/-- A document server whose every page yields exactly what that
exhausted-retries fetch returned (`None`). -/
def deniedAuthDocServer : String → Nat → FetchOutcome := fun _ _ =>
  FetchOutcome.ok deniedAuthGet.2.result

/-- A complete token JSON body as returned by a successful login or
refresh. -/
def fullTokenBody : AuthBody := ⟨none, some "acc-tok", some "ref-tok", some 86400⟩

/-- A complete persisted session with expiry-with-margin 100. -/
def cachedSession : CacheLoad := CacheLoad.loaded ⟨some "old-acc", some "old-ref", some 100⟩

/-- A server raising an exception on every page after page 1. -/
def exnAfterOneServer : Nat → FetchOutcome := fun p =>
  if p ≤ 1 then FetchOutcome.ok (some (Zip.withNames ["doc.pdf"]))
  else FetchOutcome.exn "boom"

/-! ## Helper lemmas -/

/-- Peeling the first index of a shifted `List.range` map. -/
theorem range_map_add_succ {α : Type} (g : Nat → α) (page n : Nat) :
    (List.range (n + 1)).map (fun k => g (page + k)) =
      g page :: (List.range n).map (fun k => g (page + 1 + k)) := by
  have h1 : (fun k => g (page + k)) ∘ Nat.succ = fun k => g (page + 1 + k) := by
    funext k
    show g (page + (k + 1)) = g (page + 1 + k)
    congr 1
    omega
  simp only [List.range_succ_eq_map, List.map_cons, List.map_map, h1, Nat.add_zero]

/-- One non-empty page peels off the front of `attachPages`. -/
theorem attachPages_succ (pfx t : String) (page n : Nat) (r : TypeRun) :
    attachPages pfx t page (n + 1) r =
      ⟨fileName pfx t page :: (attachPages pfx t (page + 1) n r).files,
       Event.batchLoaded t page :: (attachPages pfx t (page + 1) n r).events,
       page :: (attachPages pfx t (page + 1) n r).requests,
       (attachPages pfx t (page + 1) n r).finished⟩ := by
  have hf := range_map_add_succ (fileName pfx t) page n
  have he := range_map_add_succ (Event.batchLoaded t) page n
  have hr := range_map_add_succ (fun x : Nat => x) page n
  simp only [attachPages, hf, he, hr, List.cons_append]

/-- A run of `n` consecutive non-empty pages starting at `page`
contributes its files, batch events and requests in order, and the
loop continues at `page + n` with the remaining fuel. -/
theorem runTypeLoop_attach (server : Nat → FetchOutcome) (pfx t : String) :
    ∀ n m page : Nat, (∀ k, k < n → outcomeNonEmpty (server (page + k)) = true) →
      runTypeLoop server pfx t (n + m) page =
        attachPages pfx t page n (runTypeLoop server pfx t m (page + n)) := by
  intro n
  induction n with
  | zero =>
    intro m page _
    simp [attachPages]
  | succ n ih =>
    intro m page hfull
    have h0 : outcomeNonEmpty (server page) = true := by
      simpa using hfull 0 n.succ_pos
    have hfuel : n + 1 + m = n + m + 1 := by omega
    rw [hfuel]
    cases hsrv : server page with
    | exn msg =>
      rw [hsrv] at h0
      simp [outcomeNonEmpty] at h0
    | ok d =>
      have hd : dataNonEmpty d = true := by
        rw [hsrv] at h0
        simpa [outcomeNonEmpty] using h0
      have hfull' : ∀ k, k < n → outcomeNonEmpty (server (page + 1 + k)) = true := by
        intro k hk
        have hx := hfull (k + 1) (by omega)
        have harg : page + (k + 1) = page + 1 + k := by omega
        rwa [harg] at hx
      have hpg : page + 1 + n = page + (n + 1) := by omega
      have hih := ih m (page + 1) hfull'
      rw [hpg] at hih
      simp only [runTypeLoop, hsrv, hd, if_true]
      rw [hih, attachPages_succ]

end PlentyDoc

namespace PlentyDoc

/-- Claim C1: for every selected document type, the fetch loop
requests pages 1, 2, 3, … contiguously with no gaps, writes one file
named `{pfx}_{t}-{page}.zip` per non-empty page, and terminates
exactly at the first page whose payload is absent or whose archive
has zero entries: with `n` full pages followed by an empty page it
writes exactly the files for pages 1..n, emits the start line, one
batch line per full page and the terminal done line, and requests
exactly pages 1..n+1 (nothing after the empty page). -/
theorem pagination_contiguous (server : Nat → FetchOutcome) (pfx t : String) (n m : Nat)
    (hfull : ∀ k, k < n → outcomeNonEmpty (server (1 + k)) = true)
    (hempty : outcomeEmptyOk (server (1 + n)) = true) :
    runType server pfx t (n + (m + 1)) =
      ⟨(List.range n).map (fun k => fileName pfx t (1 + k)),
       Event.started t ::
         ((List.range n).map (fun k => Event.batchLoaded t (1 + k)) ++ [Event.done t]),
       (List.range (n + 1)).map (fun k => 1 + k),
       true⟩ := by
  have hstep : runTypeLoop server pfx t (m + 1) (1 + n) =
      ⟨[], [Event.done t], [1 + n], true⟩ := by
    cases hsrv : server (1 + n) with
    | exn msg =>
      rw [hsrv] at hempty
      simp [outcomeEmptyOk] at hempty
    | ok d =>
      have hd : dataNonEmpty d = false := by
        rw [hsrv] at hempty
        simpa [outcomeEmptyOk] using hempty
      simp [runTypeLoop, hsrv, hd]
  have hattach := runTypeLoop_attach server pfx t n (m + 1) 1 hfull
  simp only [runType, hattach, hstep, attachPages]
  simp [List.range_succ]

/-- Witness for C1 at the spec's end-to-end scenario: type `invoice`,
two full pages, then a page with zero entries — exactly two files,
a terminal done event, and requests for pages 1, 2, 3 only. -/
theorem pagination_contiguous_witness :
    (∀ k, k < 2 → outcomeNonEmpty (twoPageServer (1 + k)) = true) ∧
    outcomeEmptyOk (twoPageServer (1 + 2)) = true ∧
    runType twoPageServer "PlentyDocuments" "invoice" 3 =
      ⟨["PlentyDocuments_invoice-1.zip", "PlentyDocuments_invoice-2.zip"],
       [Event.started "invoice", Event.batchLoaded "invoice" 1,
        Event.batchLoaded "invoice" 2, Event.done "invoice"],
       [1, 2, 3], true⟩ := by
  refine ⟨by decide, by decide, ?_⟩
  have h := pagination_contiguous twoPageServer "PlentyDocuments" "invoice" 2 0
    (by decide) (by decide)
  exact h.trans (by decide)

/-- A response that makes the retry loop sleep is not a 200. -/
theorem waits_not_ok200 {g : GetResp} (h : waitsOnStatus g = true) : isOk200 g = false := by
  cases g <;> simp_all [waitsOnStatus, isOk200]

/-- A no-wait failure is not a 200. -/
theorem nowait_not_ok200 {g : GetResp} (h : noWaitFailure g = true) : isOk200 g = false := by
  cases g <;> simp_all [noWaitFailure, isOk200]

/-- The retry loop makes at most one GET per remaining iteration. -/
theorem simple_get_go_attempts_le (att : Nat → GetAttempt) (now : Int) (w : Bool) :
    ∀ n i delay st, (simple_get_go att now w n i delay st).2.attempts ≤ n := by
  intro n
  induction n with
  | zero => intro i delay st; exact Nat.le_refl 0
  | succ n ih =>
    intro i delay st
    cases hresp : (att i).resp with
    | http200 c => simp [simple_get_go, hresp]
    | exnGet =>
      simp only [simple_get_go, hresp]
      simpa [GetTrace.step] using Nat.succ_le_succ (ih (i + 1) (delay + 20) st)
    | http code =>
      simp only [simple_get_go, hresp]
      by_cases h401 : (code == 401) = true
      · simp only [h401, if_true]
        cases hr : (refresh_login (att i).refreshResp now w st).2 with
        | error e =>
          simpa [GetTrace.step] using Nat.succ_le_succ (ih (i + 1) (delay + 20) _)
        | ok b =>
          cases b with
          | true =>
            simpa [GetTrace.step] using Nat.succ_le_succ (ih (i + 1) (delay + 20) _)
          | false =>
            cases hl : (login (att i).loginResp now w
                (refresh_login (att i).refreshResp now w st).1).2 with
            | ok u =>
              simpa [GetTrace.step] using Nat.succ_le_succ (ih (i + 1) (delay + 20) _)
            | error e =>
              simpa [GetTrace.step] using Nat.succ_le_succ (ih (i + 1) (delay + 20) _)
      · by_cases h429 : (code == 429) = true
        · simp only [h401, h429, if_true, if_false, Bool.false_eq_true]
          simpa [GetTrace.step] using Nat.succ_le_succ (ih (i + 1) (delay + 20) st)
        · simp only [h401, h429, if_true, if_false, Bool.false_eq_true]
          simpa [GetTrace.step] using Nat.succ_le_succ (ih (i + 1) (delay + 20) st)

/-- If no remaining attempt answers 200, the loop exhausts and the
call returns `None`. -/
theorem simple_get_go_result_none (att : Nat → GetAttempt) (now : Int) (w : Bool) :
    ∀ n i delay st, (∀ k, k < n → isOk200 (att (i + k)).resp = false) →
      (simple_get_go att now w n i delay st).2.result = none := by
  intro n
  induction n with
  | zero => intro i delay st _; rfl
  | succ n ih =>
    intro i delay st hfail
    have h0 : isOk200 (att i).resp = false := by simpa using hfail 0 n.succ_pos
    have hrest : ∀ k, k < n → isOk200 (att (i + 1 + k)).resp = false := by
      intro k hk
      have hx := hfail (k + 1) (by omega)
      have harg : i + (k + 1) = i + 1 + k := by omega
      rwa [harg] at hx
    have key := fun (d' : Nat) (st' : ClientState) => ih (i + 1) d' st' hrest
    cases hresp : (att i).resp with
    | http200 c => rw [hresp] at h0; simp [isOk200] at h0
    | exnGet => simp [simple_get_go, hresp, GetTrace.step, key]
    | http code =>
      simp only [simple_get_go, hresp]
      by_cases h401 : (code == 401) = true
      · simp only [h401, if_true]
        cases hr : (refresh_login (att i).refreshResp now w st).2 with
        | error e => simp [GetTrace.step, key]
        | ok b =>
          cases b with
          | true => simp [GetTrace.step, key]
          | false =>
            cases hl : (login (att i).loginResp now w
                (refresh_login (att i).refreshResp now w st).1).2 with
            | ok u => simp [GetTrace.step, key]
            | error e => simp [GetTrace.step, key]
      · by_cases h429 : (code == 429) = true
        · simp [h401, h429, GetTrace.step, key]
        · simp [h401, h429, GetTrace.step, key]

/-- Peeling the delay schedule by one attempt. -/
theorem delay_range_succ (delay n : Nat) :
    (List.range (n + 1)).map (fun k => delay + 20 * k) =
      delay :: (List.range n).map (fun k => delay + 20 + 20 * k) := by
  rw [List.range_succ_eq_map, List.map_cons, List.map_map]
  simp only [Nat.mul_zero, Nat.add_zero]
  congr 1
  congr 1
  funext k
  simp only [Function.comp_apply]
  show delay + 20 * (k + 1) = delay + 20 + 20 * k
  ring

/-- When every remaining attempt answers 401 or 429, the loop sleeps
the current delay on each attempt, the delay growing by the fixed
backoff of 20. -/
theorem simple_get_go_sleeps_wait (att : Nat → GetAttempt) (now : Int) (w : Bool) :
    ∀ n i delay st, (∀ k, k < n → waitsOnStatus (att (i + k)).resp = true) →
      (simple_get_go att now w n i delay st).2.sleeps =
        (List.range n).map (fun k => delay + 20 * k) := by
  intro n
  induction n with
  | zero => intro i delay st _; rfl
  | succ n ih =>
    intro i delay st hw
    have h0 : waitsOnStatus (att i).resp = true := by simpa using hw 0 n.succ_pos
    have hrest : ∀ k, k < n → waitsOnStatus (att (i + 1 + k)).resp = true := by
      intro k hk
      have hx := hw (k + 1) (by omega)
      have harg : i + (k + 1) = i + 1 + k := by omega
      rwa [harg] at hx
    have key := fun (d' : Nat) (st' : ClientState) => ih (i + 1) d' st' hrest
    rw [delay_range_succ]
    cases hresp : (att i).resp with
    | http200 c => rw [hresp] at h0; simp [waitsOnStatus] at h0
    | exnGet => rw [hresp] at h0; simp [waitsOnStatus] at h0
    | http code =>
      have hcode : (code == 401) = true ∨ (code == 429) = true := by
        rw [hresp] at h0
        simpa [waitsOnStatus, Bool.or_eq_true] using h0
      simp only [simple_get_go, hresp]
      by_cases h401 : (code == 401) = true
      · simp only [h401, if_true]
        cases hr : (refresh_login (att i).refreshResp now w st).2 with
        | error e => simp [GetTrace.step, key]
        | ok b =>
          cases b with
          | true => simp [GetTrace.step, key]
          | false =>
            cases hl : (login (att i).loginResp now w
                (refresh_login (att i).refreshResp now w st).1).2 with
            | ok u => simp [GetTrace.step, key]
            | error e => simp [GetTrace.step, key]
      · have h429 : (code == 429) = true := hcode.resolve_left h401
        simp [h401, h429, GetTrace.step, key]

/-- When every remaining attempt fails with a status the loop does
not sleep on (nor a 200, 401 or 429), no sleep at all is performed. -/
theorem simple_get_go_sleeps_nowait (att : Nat → GetAttempt) (now : Int) (w : Bool) :
    ∀ n i delay st, (∀ k, k < n → noWaitFailure (att (i + k)).resp = true) →
      (simple_get_go att now w n i delay st).2.sleeps = [] := by
  intro n
  induction n with
  | zero => intro i delay st _; rfl
  | succ n ih =>
    intro i delay st hw
    have h0 : noWaitFailure (att i).resp = true := by simpa using hw 0 n.succ_pos
    have hrest : ∀ k, k < n → noWaitFailure (att (i + 1 + k)).resp = true := by
      intro k hk
      have hx := hw (k + 1) (by omega)
      have harg : i + (k + 1) = i + 1 + k := by omega
      rwa [harg] at hx
    have key := fun (d' : Nat) (st' : ClientState) => ih (i + 1) d' st' hrest
    cases hresp : (att i).resp with
    | http200 c => rw [hresp] at h0; simp [noWaitFailure] at h0
    | exnGet => simp [simple_get_go, hresp, GetTrace.step, key]
    | http code =>
      rw [hresp] at h0
      have h401 : (code == 401) = false := by
        cases hc : code == 401
        · rfl
        · simp [noWaitFailure, hc] at h0
      have h429 : (code == 429) = false := by
        cases hc : code == 429
        · rfl
        · simp [noWaitFailure, hc] at h0
      simp [simple_get_go, hresp, h401, h429, GetTrace.step, key]

/-- If two servers differ only in that, where one yields a
terminating page (absent payload or empty archive), the other also
yields a terminating page, the per-type loop behaves identically. -/
theorem runTypeLoop_congr (s1 s2 : Nat → FetchOutcome) (pfx t : String)
    (h : ∀ p, s1 p = s2 p ∨
      ∃ d1 d2, s1 p = FetchOutcome.ok d1 ∧ s2 p = FetchOutcome.ok d2 ∧
        dataNonEmpty d1 = false ∧ dataNonEmpty d2 = false) :
    ∀ fuel page, runTypeLoop s1 pfx t fuel page = runTypeLoop s2 pfx t fuel page := by
  intro fuel
  induction fuel with
  | zero => intro page; rfl
  | succ fuel ih =>
    intro page
    rcases h page with heq | ⟨d1, d2, h1, h2, hd1, hd2⟩
    · cases hsrv : s2 page with
      | exn msg => simp [runTypeLoop, heq, hsrv]
      | ok d =>
        by_cases hd : dataNonEmpty d = true
        · simp [runTypeLoop, heq, hsrv, hd, ih (page + 1)]
        · simp [runTypeLoop, heq, hsrv, hd]
    · simp [runTypeLoop, h1, h2, hd1, hd2]

end PlentyDoc

namespace PlentyDoc

/-- Claim C2 (amended): the HTTP primitive makes at most 3 attempts
and returns a no-result outcome (`None`) when they are exhausted; the
internal delay starts at 5 and grows by 20 per attempt, but an actual
wait of the current delay is performed only on 401 and 429 responses
— three consecutive 401/429 responses wait exactly 5, 25, 45, while
for other non-200 statuses or raised requests no wait at all is
performed. -/
theorem retry_policy_amended (att : Nat → GetAttempt) (now : Int) (w : Bool)
    (st : ClientState) :
    (simple_get att now w st).2.attempts ≤ 3 ∧
    ((∀ k, k < 3 → waitsOnStatus (att k).resp = true) →
      (simple_get att now w st).2.sleeps = [5, 25, 45] ∧
      (simple_get att now w st).2.result = none) ∧
    ((∀ k, k < 3 → noWaitFailure (att k).resp = true) →
      (simple_get att now w st).2.sleeps = [] ∧
      (simple_get att now w st).2.result = none) := by
  refine ⟨simple_get_go_attempts_le att now w 3 0 5 st, ?_, ?_⟩
  · intro hw
    have hw' : ∀ k, k < 3 → waitsOnStatus (att (0 + k)).resp = true := by
      intro k hk
      simpa using hw k hk
    have h1 := simple_get_go_sleeps_wait att now w 3 0 5 st hw'
    have h2 := simple_get_go_result_none att now w 3 0 5 st
      (fun k hk => waits_not_ok200 (hw' k hk))
    exact ⟨h1.trans (by decide), h2⟩
  · intro hw
    have hw' : ∀ k, k < 3 → noWaitFailure (att (0 + k)).resp = true := by
      intro k hk
      simpa using hw k hk
    have h1 := simple_get_go_sleeps_nowait att now w 3 0 5 st hw'
    have h2 := simple_get_go_result_none att now w 3 0 5 st
      (fun k hk => nowait_not_ok200 (hw' k hk))
    exact ⟨h1, h2⟩

/-- Claim C2 is false as stated: for three consecutive non-200
responses with status 500, the call makes 3 attempts and returns no
result, but performs no waits at all — the sleep sequence is `[]`,
not `[5, 25, 45]` (the source only sleeps on 401 and 429). -/
theorem retry_policy_counterexample :
    (all500Att 0).resp = GetResp.http 500 ∧
    (simple_get all500Att 0 true initState).2.attempts = 3 ∧
    (simple_get all500Att 0 true initState).2.result = none ∧
    (simple_get all500Att 0 true initState).2.sleeps = [] ∧
    (simple_get all500Att 0 true initState).2.sleeps ≠ [5, 25, 45] := by decide

/-- Witness for the amended C2: with three 429 responses the waits
are exactly 5, 25, 45 and the call returns no result; with three 500
responses no wait is performed. -/
theorem retry_policy_amended_witness :
    (simple_get all429Att 0 true initState).2.attempts ≤ 3 ∧
    (simple_get all429Att 0 true initState).2.sleeps = [5, 25, 45] ∧
    (simple_get all429Att 0 true initState).2.result = none ∧
    (simple_get all500Att 0 true initState).2.sleeps = [] := by
  have h1 := retry_policy_amended all429Att 0 true initState
  have h2 := retry_policy_amended all500Att 0 true initState
  refine ⟨h1.1, (h1.2.1 (by decide)).1, (h1.2.1 (by decide)).2, (h2.2.2 (by decide)).1⟩

/-- Claim C6: when the HTTP primitive exhausts its retries (no 200
among the 3 attempts) the call returns no result; the worker folds
that outcome into exactly the same done terminal condition as a
legitimately empty archive (identical files, events and requests for
the whole loop), and only the current type's loop ends — the worker
processes the remaining types as the independent concatenation
regardless. -/
theorem exhausted_retries_treated_as_done :
    (∀ (att : Nat → GetAttempt) (now : Int) (w : Bool) (st : ClientState),
      (∀ k, k < 3 → isOk200 (att k).resp = false) →
      (simple_get att now w st).2.result = none) ∧
    (∀ (server : Nat → FetchOutcome) (pfx t : String) (fuel page p : Nat) (z : Zip),
      is_zip_empty z = true →
      runTypeLoop (Function.update server p (FetchOutcome.ok none)) pfx t fuel page =
        runTypeLoop (Function.update server p (FetchOutcome.ok (some z))) pfx t fuel page) ∧
    (∀ (server : String → Nat → FetchOutcome) (pfx : String) (fuel : Nat)
        (t : String) (rest : List String),
      runWorker server pfx fuel (t :: rest) =
        ⟨(runType (server t) pfx t fuel).files ++ (runWorker server pfx fuel rest).files,
         (runType (server t) pfx t fuel).events ++ (runWorker server pfx fuel rest).events,
         (runType (server t) pfx t fuel).requests.map (fun q => (t, q)) ++
           (runWorker server pfx fuel rest).requests⟩) := by
  refine ⟨?_, ?_, ?_⟩
  · intro att now w st h
    exact simple_get_go_result_none att now w 3 0 5 st (fun k hk => by simpa using h k hk)
  · intro server pfx t fuel page p z hz
    apply runTypeLoop_congr
    intro q
    by_cases hq : q = p
    · subst hq
      right
      exact ⟨none, some z, by simp, by simp, rfl, by simp [dataNonEmpty, hz]⟩
    · left
      simp [Function.update_noteq hq]
  · intro server pfx fuel t rest
    rfl

/-- Witness for C6: an all-denied environment exhausts its retries
and yields `None`; replacing a page's outcome `None` by an
unparsable archive leaves the loop's behaviour unchanged; and the
worker over two types is their concatenation. -/
theorem exhausted_retries_witness :
    (simple_get deniedAuthAtt 0 true initState).2.result = none ∧
    runTypeLoop (Function.update twoPageServer 1 (FetchOutcome.ok none)) "P" "invoice" 1 1 =
      runTypeLoop (Function.update twoPageServer 1 (FetchOutcome.ok (some Zip.bad)))
        "P" "invoice" 1 1 ∧
    runWorker (fun _ => twoPageServer) "P" 4 ["invoice", "receipt"] =
      ⟨["P_invoice-1.zip", "P_invoice-2.zip", "P_receipt-1.zip", "P_receipt-2.zip"],
       [Event.started "invoice", Event.batchLoaded "invoice" 1,
        Event.batchLoaded "invoice" 2, Event.done "invoice",
        Event.started "receipt", Event.batchLoaded "receipt" 1,
        Event.batchLoaded "receipt" 2, Event.done "receipt"],
       [("invoice", 1), ("invoice", 2), ("invoice", 3),
        ("receipt", 1), ("receipt", 2), ("receipt", 3)]⟩ := by
  have h := exhausted_retries_treated_as_done
  refine ⟨h.1 deniedAuthAtt 0 true initState (by decide),
    h.2.1 twoPageServer "P" "invoice" 1 1 1 Zip.bad (by decide), ?_⟩
  exact (h.2.2 (fun _ => twoPageServer) "P" 4 "invoice" ["receipt"]).trans (by decide)

/-- Claim C7: an exception during a page fetch is caught at the
per-type loop boundary: after `n` full pages an exception at page
`n+1` produces the error and abort log events, terminates exactly
that type's loop, and the worker's handling of a type list is the
independent concatenation, so sibling types are still processed. -/
theorem exception_caught_at_type_boundary (server : Nat → FetchOutcome) (pfx t : String)
    (n m : Nat) (msg : String)
    (hfull : ∀ k, k < n → outcomeNonEmpty (server (1 + k)) = true)
    (hexn : server (1 + n) = FetchOutcome.exn msg) :
    runType server pfx t (n + (m + 1)) =
      ⟨(List.range n).map (fun k => fileName pfx t (1 + k)),
       Event.started t ::
         ((List.range n).map (fun k => Event.batchLoaded t (1 + k)) ++
           [Event.fetchError t msg, Event.abortRun]),
       (List.range (n + 1)).map (fun k => 1 + k),
       true⟩ ∧
    ∀ (sAll : String → Nat → FetchOutcome) (rest : List String) (fuel : Nat),
      runWorker sAll pfx fuel (t :: rest) =
        ⟨(runType (sAll t) pfx t fuel).files ++ (runWorker sAll pfx fuel rest).files,
         (runType (sAll t) pfx t fuel).events ++ (runWorker sAll pfx fuel rest).events,
         (runType (sAll t) pfx t fuel).requests.map (fun q => (t, q)) ++
           (runWorker sAll pfx fuel rest).requests⟩ := by
  constructor
  · have hstep : runTypeLoop server pfx t (m + 1) (1 + n) =
        ⟨[], [Event.fetchError t msg, Event.abortRun], [1 + n], true⟩ := by
      simp [runTypeLoop, hexn]
    have hattach := runTypeLoop_attach server pfx t n (m + 1) 1 hfull
    simp only [runType, hattach, hstep, attachPages]
    simp [List.range_succ]
  · intro sAll rest fuel
    rfl

/-- Witness for C7: one full page, then an exception at page 2 — the
type aborts with the error events, and a sibling type is still
processed afterwards. -/
theorem exception_caught_witness :
    (∀ k, k < 1 → outcomeNonEmpty (exnAfterOneServer (1 + k)) = true) ∧
    exnAfterOneServer (1 + 1) = FetchOutcome.exn "boom" ∧
    runType exnAfterOneServer "P" "invoice" 2 =
      ⟨["P_invoice-1.zip"],
       [Event.started "invoice", Event.batchLoaded "invoice" 1,
        Event.fetchError "invoice" "boom", Event.abortRun],
       [1, 2], true⟩ ∧
    runWorker (fun _ => exnAfterOneServer) "P" 2 ["invoice", "receipt"] =
      ⟨["P_invoice-1.zip", "P_receipt-1.zip"],
       [Event.started "invoice", Event.batchLoaded "invoice" 1,
        Event.fetchError "invoice" "boom", Event.abortRun,
        Event.started "receipt", Event.batchLoaded "receipt" 1,
        Event.fetchError "receipt" "boom", Event.abortRun],
       [("invoice", 1), ("invoice", 2), ("receipt", 1), ("receipt", 2)]⟩ := by
  have h := exception_caught_at_type_boundary exnAfterOneServer "P" "invoice" 1 0 "boom"
    (by decide) (by decide)
  refine ⟨by decide, by decide, h.1.trans (by decide), ?_⟩
  exact (h.2 (fun _ => exnAfterOneServer) ["receipt"] 2).trans (by decide)

/-- Claim C4 is false as stated: a rejected credential exchange is
not fatal for the whole run when it happens during the 401 handling
of a page fetch.  With every GET answering 401, every refresh denied
and every login rejected, the login is attempted and fails on all 3
attempts, each `RuntimeError` is caught inside the retry loop, the
call merely returns no result, and the worker then logs done for the
type and continues with the sibling type. -/
theorem login_failure_not_always_fatal_counterexample :
    deniedAuthGet.2.caught =
      ["Login failed! invalid credentials", "Login failed! invalid credentials",
       "Login failed! invalid credentials"] ∧
    deniedAuthGet.2.actions =
      [AuthAction.refreshAttempt, AuthAction.loginAttempt,
       AuthAction.refreshAttempt, AuthAction.loginAttempt,
       AuthAction.refreshAttempt, AuthAction.loginAttempt] ∧
    deniedAuthGet.2.result = none ∧
    runWorker deniedAuthDocServer "P" 1 ["invoice", "receipt"] =
      ⟨[], [Event.started "invoice", Event.done "invoice",
            Event.started "receipt", Event.done "receipt"],
       [("invoice", 1), ("receipt", 1)]⟩ := by decide

/-- Claim C4 (amended): a rejected credential exchange during client
construction is fatal for the run — the worker surfaces it as a
single log line carrying the raised message (for a JSON error
response, "Login failed! " followed by the server's error text), no
session exists and no document type is processed; a login failure
during in-call 401 re-authentication is instead caught inside the
HTTP primitive's retry loop. -/
theorem login_failure_fatal_at_construction (u pw : String) (cache : CacheLoad) (now : Int)
    (rresp lresp : AuthResp) (w : Bool) (e : String)
    (server : String → Nat → FetchOutcome) (pfx : String) (types : List String) (fuel : Nat)
    (hload : (load_token cache initState).2 = false)
    (hlogin : (login lresp now w (load_token cache initState).1).2 = Except.error e) :
    appRun (CredArg.dict (some u) (some pw)) cache now rresp lresp w server pfx types fuel =
      ⟨[], [Event.connectError e], []⟩ ∧
    ∀ (code : Nat) (body : AuthBody), code ≠ 200 →
      (login (AuthResp.jsonResp code body) now w initState).2 =
        Except.error ("Login failed! " ++ body.error.getD (toString code)) := by
  constructor
  · simp [appRun, client_init, sanity_check_credentials, bootstrap, hload, hlogin]
  · intro code body hcode
    simp [login, hcode]

/-- Witness for the amended C4: no cached session and a 401 login
rejection with server text "invalid credentials" — the run produces
exactly one connection-failure log line and nothing else. -/
theorem login_failure_fatal_witness :
    appRun (CredArg.dict (some "user") (some "pw")) CacheLoad.missing 0 AuthResp.netExn
        (AuthResp.jsonResp 401 ⟨some "invalid credentials", none, none, none⟩) true
        deniedAuthDocServer "P" ["invoice"] 1 =
      ⟨[], [Event.connectError "Login failed! invalid credentials"], []⟩ ∧
    (401 : Nat) ≠ 200 ∧
    (login (AuthResp.jsonResp 401 ⟨some "invalid credentials", none, none, none⟩) 0 true
        initState).2 =
      Except.error ("Login failed! " ++
        (some "invalid credentials").getD (toString (401 : Nat))) := by
  have h := login_failure_fatal_at_construction "user" "pw" CacheLoad.missing 0
    AuthResp.netExn (AuthResp.jsonResp 401 ⟨some "invalid credentials", none, none, none⟩)
    true "Login failed! invalid credentials" deniedAuthDocServer "P" ["invoice"] 1
    rfl rfl
  exact ⟨h.1, by decide, h.2 401 ⟨some "invalid credentials", none, none, none⟩ (by decide)⟩

/-- Claim C3: at construction, a missing or malformed cache leads to
exactly one fresh login; a session that loads but whose
expiry-with-margin is in the past leads to exactly one refresh
attempt, followed by exactly one login attempt iff the refresh
returned failure; a non-expired loaded session triggers no auth call
at all. -/
theorem bootstrap_auth_sequence (cache : CacheLoad) (now : Int) (rresp lresp : AuthResp)
    (w : Bool) (st : ClientState) :
    ((load_token cache st).2 = false →
      (bootstrap cache now rresp lresp w st).2.2 = [AuthAction.loginAttempt]) ∧
    ((load_token cache st).2 = true →
      session_expired (load_token cache st).1 now = true →
      ∀ b, (refresh_login rresp now w (load_token cache st).1).2 = Except.ok b →
        (bootstrap cache now rresp lresp w st).2.2 =
          if b then [AuthAction.refreshAttempt]
          else [AuthAction.refreshAttempt, AuthAction.loginAttempt]) ∧
    ((load_token cache st).2 = true →
      session_expired (load_token cache st).1 now = false →
      (bootstrap cache now rresp lresp w st).2.2 = []) := by
  refine ⟨?_, ?_, ?_⟩
  · intro h
    simp [bootstrap, h]
  · intro hld hexp b hr
    cases b <;> simp [bootstrap, hld, hexp, hr]
  · intro hld hexp
    simp [bootstrap, hld, hexp]

/-- Witness for C3: a cached session with expiry-with-margin 100
loaded at time 200 and a denied refresh — exactly one refresh attempt
followed by exactly one login attempt. -/
theorem bootstrap_auth_sequence_witness :
    (load_token cachedSession initState).2 = true ∧
    session_expired (load_token cachedSession initState).1 200 = true ∧
    (refresh_login (AuthResp.jsonResp 400 ⟨some "denied", none, none, none⟩) 200 true
        (load_token cachedSession initState).1).2 = Except.ok false ∧
    (bootstrap cachedSession 200 (AuthResp.jsonResp 400 ⟨some "denied", none, none, none⟩)
        (AuthResp.jsonResp 200 fullTokenBody) true initState).2.2 =
      [AuthAction.refreshAttempt, AuthAction.loginAttempt] := by
  have h := bootstrap_auth_sequence cachedSession 200
    (AuthResp.jsonResp 400 ⟨some "denied", none, none, none⟩)
    (AuthResp.jsonResp 200 fullTokenBody) true initState
  refine ⟨rfl, rfl, rfl, ?_⟩
  simpa using h.2.1 rfl rfl false rfl

/-- Claim C5 is false as stated: the refresh operation does not
return a boolean for every failure mode — when the transport layer
raises (here a connection error from `requests.post`), the exception
propagates out of `__refresh_login` instead of being turned into
`False` (there is no try/except in its body). -/
theorem refresh_raises_counterexample :
    (refresh_login AuthResp.netExn 0 true initState).2 =
      Except.error "ConnectionError" := rfl

/-- Claim C5 (amended): for every JSON-bodied server response the
refresh operation returns a boolean without raising — `false` on any
non-200 status and `true` on a 200 carrying a complete token triple —
but a transport exception, a non-JSON body, or a 200 response missing
a token field propagates an exception to the caller. -/
theorem refresh_returns_bool_amended (now : Int) (w : Bool) (st : ClientState) (code : Nat)
    (body : AuthBody) :
    (code ≠ 200 → (refresh_login (AuthResp.jsonResp code body) now w st).2 = Except.ok false) ∧
    (∀ ei a r, body.expiresIn = some ei → body.access_token = some a →
      body.refresh_token = some r →
      (refresh_login (AuthResp.jsonResp 200 body) now w st).2 = Except.ok true) := by
  constructor
  · intro h
    simp [refresh_login, h]
  · intro ei a r hei ha hr
    simp [refresh_login, save_token, hei, ha, hr]

/-- Witness for the amended C5: a 401 refresh response yields
`false`, a 200 response with a complete token yields `true`. -/
theorem refresh_returns_bool_witness :
    (refresh_login (AuthResp.jsonResp 401 fullTokenBody) 0 true initState).2 =
      Except.ok false ∧
    (refresh_login (AuthResp.jsonResp 200 fullTokenBody) 0 true initState).2 =
      Except.ok true := by
  have h := refresh_returns_bool_amended 0 true initState 401 fullTokenBody
  exact ⟨h.1 (by decide), h.2 86400 "acc-tok" "ref-tok" rfl rfl rfl⟩

/-- Claim C8: on every successful login or refresh the stored expiry
is issued-time plus the server-declared lifetime minus the 2-hour
safety margin, and the expiry check compares the current time against
exactly this stored expiry-with-margin value. -/
theorem expiry_margin (now : Int) (body : AuthBody) (w : Bool) (st : ClientState)
    (ei : Int) (a r : String) (hei : body.expiresIn = some ei)
    (ha : body.access_token = some a) (hr : body.refresh_token = some r) :
    (save_token now body w st).1.expires_at = some (now + ei - 2 * 60 * 60) ∧
    ∀ now2 : Int, session_expired (save_token now body w st).1 now2 =
      decide (now + ei - 2 * 60 * 60 < now2) := by
  refine ⟨?_, ?_⟩
  · simp [save_token, hei, ha, hr]
  · intro now2
    simp [save_token, session_expired, hei, ha, hr]

/-- Witness for C8 at a token issued at time 1000 with lifetime
86400: the stored expiry is 1000 + 86400 − 7200 = 80200 and the check
compares against it. -/
theorem expiry_margin_witness :
    (save_token 1000 fullTokenBody true initState).1.expires_at =
      some (1000 + 86400 - 2 * 60 * 60) ∧
    session_expired (save_token 1000 fullTokenBody true initState).1 90000 =
      decide ((1000 + 86400 - 2 * 60 * 60 : Int) < 90000) := by
  have h := expiry_margin 1000 fullTokenBody true initState 86400 "acc-tok" "ref-tok"
    rfl rfl rfl
  exact ⟨h.1, h.2 90000⟩

/-- Claim C9 is false as stated: credentials with empty username and
empty password pass the constructor's validation (only key presence
is checked, never non-emptiness), and construction proceeds to a
network login attempt instead of failing with a validation error. -/
theorem empty_credentials_accepted_counterexample :
    sanity_check_credentials (CredArg.dict (some "") (some "")) = Except.ok () ∧
    (client_init (CredArg.dict (some "") (some "")) CacheLoad.missing 0 AuthResp.netExn
        (AuthResp.jsonResp 403 ⟨some "denied", none, none, none⟩) true).2.2 =
      [AuthAction.loginAttempt] := ⟨rfl, rfl⟩

/-- Claim C9 (amended): the constructor validates that the
credentials argument is a mapping containing both the username and
the password key — failing with a validation error before any network
call when it is not — but it does not require the values to be
non-empty. -/
theorem credential_check_amended (arg : CredArg) :
    ((sanity_check_credentials arg = Except.ok ()) ↔ hasBothCredKeys arg = true) ∧
    (∀ e, sanity_check_credentials arg = Except.error e →
      ∀ (cache : CacheLoad) (now : Int) (rresp lresp : AuthResp) (w : Bool),
        client_init arg cache now rresp lresp w = (initState, Except.error e, [])) := by
  constructor
  · cases arg with
    | notDict => simp [sanity_check_credentials, hasBothCredKeys]
    | dict u p => cases u <;> cases p <;> simp [sanity_check_credentials, hasBothCredKeys]
  · intro e he cache now rresp lresp w
    simp [client_init, he]

/-- Witness for the amended C9: a dict missing the password key is
rejected before any auth traffic (no auth actions at all). -/
theorem credential_check_witness :
    ((sanity_check_credentials (CredArg.dict (some "u") none) = Except.ok ()) ↔
      hasBothCredKeys (CredArg.dict (some "u") none) = true) ∧
    client_init (CredArg.dict (some "u") none) CacheLoad.missing 0 AuthResp.netExn
        AuthResp.netExn true = (initState, Except.error "Missing API-Password", []) := by
  have h := credential_check_amended (CredArg.dict (some "u") none)
  exact ⟨h.1, h.2 "Missing API-Password" rfl CacheLoad.missing 0 AuthResp.netExn
    AuthResp.netExn true⟩

/-- Claim C10: on a successful login or refresh the in-memory access
token, refresh token and expiry are all replaced (before the cache
write, whose failure is reported as `false` from the save step
without raising and without undoing the in-memory update); the
login/refresh still succeed when persistence fails. -/
theorem cache_write_failure_nonfatal (now : Int) (body : AuthBody) (st : ClientState)
    (ei : Int) (a r : String) (hei : body.expiresIn = some ei)
    (ha : body.access_token = some a) (hr : body.refresh_token = some r) :
    (save_token now body false st).1 =
      ⟨some a, some r, some (now + ei - 2 * 60 * 60)⟩ ∧
    (save_token now body false st).2 = Except.ok false ∧
    (save_token now body true st).1 = (save_token now body false st).1 ∧
    (save_token now body true st).2 = Except.ok true ∧
    (refresh_login (AuthResp.jsonResp 200 body) now false st).2 = Except.ok true ∧
    (login (AuthResp.jsonResp 200 body) now false st).2 = Except.ok () := by
  refine ⟨?_, ?_, ?_, ?_, ?_, ?_⟩ <;>
    simp [save_token, refresh_login, login, hei, ha, hr]

/-- Witness for C10: a failed cache write leaves the freshly
installed in-memory session in place and the refresh and login still
succeed. -/
theorem cache_write_failure_witness :
    (save_token 1000 fullTokenBody false initState).1 =
      ⟨some "acc-tok", some "ref-tok", some (1000 + 86400 - 2 * 60 * 60)⟩ ∧
    (save_token 1000 fullTokenBody false initState).2 = Except.ok false ∧
    (refresh_login (AuthResp.jsonResp 200 fullTokenBody) 1000 false initState).2 =
      Except.ok true ∧
    (login (AuthResp.jsonResp 200 fullTokenBody) 1000 false initState).2 =
      Except.ok () := by
  have h := cache_write_failure_nonfatal 1000 fullTokenBody initState 86400
    "acc-tok" "ref-tok" rfl rfl rfl
  exact ⟨h.1, h.2.1, h.2.2.2.2.1, h.2.2.2.2.2⟩

end PlentyDoc
